import Mathlib

/-!
Shallow embedding of the core of the `nest-js-swagger-integration` repository:
the in-memory Users and Courses services (`src/users/users.service.ts`,
`src/courses/courses.service.ts`), the boundary pagination validation declared
on the query DTOs (`src/users/dto/user.dto.ts`), and the demo authentication
service (`src/auth/auth.service.ts`).

Modelling conventions:
* JavaScript `Date` instants are modelled as natural numbers (`Nat` ticks);
  the seed date literals are mapped to their `yyyymmdd` encodings, which
  preserves their ordering.  `new Date()` is modelled by an explicit `now`
  parameter.
* JavaScript numbers appearing as ids and counters are `Nat`; pagination
  parameters are `Int` (they may be negative); prices and ratings are `Rat`.
* `x || y` on strings/numbers is modelled by the `jsOr*` helpers (JS treats
  `0`, `""` and `undefined` as falsy).
* `Array.prototype.slice(start, stop)` including its negative-index clamping
  is modelled by `jsSlice`.
* Thrown `NotFoundException` / `ConflictException` / `UnauthorizedException`
  are modelled as `Except`/pair results carrying an `ApiError`; a throwing
  call leaves the state unchanged.
* DTO classes are modelled as structures holding exactly the fields the
  class declares (the global `ValidationPipe` runs with `whitelist` and
  `forbidNonWhitelisted`, so no other field can reach the services).
-/

/-- Truthiness of a JS string: `""` is falsy, every other string truthy. -/
def jsStrTruthy (s : String) : Bool := s != ""

/-- Truthiness of an optional JS string (`undefined` and `""` are falsy). -/
def optStrTruthy : Option String → Bool
  | none => false
  | some s => jsStrTruthy s

/-- JS `x || d` for an optional number: `undefined` and `0` fall back to `d`. -/
def jsOrInt (o : Option Int) (d : Int) : Int :=
  match o with
  | none => d
  | some v => if v == 0 then d else v

/-- JS `x || d` for an optional non-negative number field. -/
def jsOrNat (o : Option Nat) (d : Nat) : Nat :=
  match o with
  | none => d
  | some v => if v == 0 then d else v

/-- JS `x || d` for an optional string: `undefined` and `""` fall back to `d`. -/
def jsOrStr (o : Option String) (d : String) : String :=
  match o with
  | none => d
  | some s => if s == "" then d else s

/-- JS `Array.prototype.slice(start, stop)`: negative indices count from the
end, and both indices are clamped to `[0, length]`. -/
def jsSlice {α : Type} (xs : List α) (start stop : Int) : List α :=
  let len : Int := xs.length
  let s := if start < 0 then max (len + start) 0 else min start len
  let e := if stop < 0 then max (len + stop) 0 else min stop len
  (xs.take e.toNat).drop s.toNat

/-- JS `haystack.includes(needle)`: contiguous-substring test. -/
def strIncludes (haystack needle : String) : Bool :=
  decide (needle.data <:+: haystack.data)

/-- `findIndex` + replace-at-index on an array: rewrite the first element
satisfying `p` by `f`, returning the rewritten element and the new list, or
`none` when no element matches. -/
def updateFirst {α : Type} (p : α → Bool) (f : α → α) : List α → Option (α × List α)
  | [] => none
  | x :: xs =>
    if p x then some (f x, f x :: xs)
    else
      match updateFirst p f xs with
      | some (r, xs') => some (r, x :: xs')
      | none => none

/-- `findIndex` + `splice(idx, 1)` on an array: remove the first element
satisfying `p`, or `none` when no element matches. -/
def removeFirst {α : Type} (p : α → Bool) : List α → Option (List α)
  | [] => none
  | x :: xs =>
    if p x then some xs
    else (removeFirst p xs).map (fun xs' => x :: xs')

/-- The three exception kinds thrown by the services. -/
inductive ApiError
  | notFound
  | conflict
  | unauthorized
deriving DecidableEq, Repr

/-! ## Users data model (`src/users/dto/user.dto.ts`) -/

inductive UserRole
  | student
  | instructor
  | admin
deriving DecidableEq, Repr

inductive UserStatus
  | active
  | inactive
  | suspended
deriving DecidableEq, Repr

/-- `UserResponseDto`: the stored user record. -/
structure User where
  id : Nat
  email : String
  firstName : String
  lastName : String
  fullName : String
  role : UserRole
  status : UserStatus
  phone : Option String
  bio : Option String
  createdAt : Nat
  updatedAt : Nat
deriving DecidableEq, Repr

/-- `CreateUserDto`. -/
structure CreateUserDto where
  email : String
  password : String
  firstName : String
  lastName : String
  role : UserRole
  phone : Option String
  bio : Option String
deriving DecidableEq, Repr

/-- `UpdateUserDto`: the only patchable fields (no id, email, role or
timestamps are declared on the class, and the whitelist pipe strips or
rejects anything else). -/
structure UpdateUserDto where
  firstName : Option String
  lastName : Option String
  phone : Option String
  bio : Option String
  status : Option UserStatus
deriving DecidableEq, Repr

/-- `QueryUserDto` as seen by the service after boundary coercion. -/
structure UserQuery where
  search : Option String
  role : Option UserRole
  status : Option UserStatus
  page : Option Int
  limit : Option Int
deriving DecidableEq, Repr

/-- The listing envelope `{data, total, page, limit}`. -/
structure Paged (α : Type) where
  data : List α
  total : Nat
  page : Int
  limit : Int
deriving DecidableEq, Repr

/-- The private `users` array together with the private `nextId` counter. -/
structure UsersState where
  users : List User
  nextId : Nat
deriving DecidableEq, Repr

/-- Seed record with id 1 from `users.service.ts`. -/
def adminUser : User :=
  { id := 1, email := "admin@lms.com", firstName := "Admin", lastName := "User"
    fullName := "Admin User", role := .admin, status := .active
    phone := some "+1234567890", bio := some "System Administrator"
    createdAt := 20260101, updatedAt := 20260101 }

/-- Seed record with id 2 from `users.service.ts`. -/
def janeUser : User :=
  { id := 2, email := "instructor@lms.com", firstName := "Jane", lastName := "Smith"
    fullName := "Jane Smith", role := .instructor, status := .active
    phone := some "+1234567891", bio := some "Senior Instructor with 10+ years experience"
    createdAt := 20260115, updatedAt := 20260115 }

/-- Seed record with id 3 from `users.service.ts`. -/
def bobUser : User :=
  { id := 3, email := "student@lms.com", firstName := "Bob", lastName := "Johnson"
    fullName := "Bob Johnson", role := .student, status := .active
    phone := none, bio := none
    createdAt := 20260201, updatedAt := 20260201 }

/-- Initial state of `UsersService`: three seed users, `nextId = 4`. -/
def usersInit : UsersState := ⟨[adminUser, janeUser, bobUser], 4⟩

/-- The search predicate of `UsersService.findAll` (case-insensitive substring
on first name, last name or email); `sl` is the already-lowercased search. -/
def userMatchesSearch (sl : String) (u : User) : Bool :=
  strIncludes u.firstName.toLower sl ||
  strIncludes u.lastName.toLower sl ||
  strIncludes u.email.toLower sl

/-- The `if (query.search)` stage of `UsersService.findAll`. -/
def filterSearchU (o : Option String) (l : List User) : List User :=
  match o with
  | some t => if jsStrTruthy t then l.filter (userMatchesSearch t.toLower) else l
  | none => l

/-- The `if (query.role)` stage of `UsersService.findAll`. -/
def filterRoleU (o : Option UserRole) (l : List User) : List User :=
  match o with
  | some r => l.filter (fun u => u.role == r)
  | none => l

/-- The `if (query.status)` stage of `UsersService.findAll`. -/
def filterStatusU (o : Option UserStatus) (l : List User) : List User :=
  match o with
  | some st => l.filter (fun u => u.status == st)
  | none => l

/-- The filter pipeline of `UsersService.findAll` before pagination. -/
def usersFiltered (s : UsersState) (q : UserQuery) : List User :=
  filterStatusU q.status (filterRoleU q.role (filterSearchU q.search s.users))

/-- `UsersService.findAll`. -/
def usersFindAll (s : UsersState) (q : UserQuery) : Paged User :=
  let filtered := usersFiltered s q
  let total := filtered.length
  let page := jsOrInt q.page 1
  let limit := jsOrInt q.limit 10
  let start := (page - 1) * limit
  let stop := start + limit
  ⟨jsSlice filtered start stop, total, page, limit⟩

/-- `UsersService.findOne`. -/
def usersFindOne (s : UsersState) (i : Nat) : Except ApiError User :=
  match s.users.find? (fun u => u.id == i) with
  | some u => .ok u
  | none => .error .notFound

/-- `UsersService.findByEmail`. -/
def usersFindByEmail (s : UsersState) (e : String) : Option User :=
  s.users.find? (fun u => u.email == e)

/-- `UsersService.create`; on conflict the exception is thrown before
`nextId++` and before the push, so the state is returned unchanged. -/
def usersCreate (s : UsersState) (d : CreateUserDto) (now : Nat) :
    Except ApiError User × UsersState :=
  match usersFindByEmail s d.email with
  | some _ => (.error .conflict, s)
  | none =>
    let newUser : User :=
      { id := s.nextId, email := d.email
        firstName := d.firstName, lastName := d.lastName
        fullName := d.firstName ++ " " ++ d.lastName
        role := d.role, status := .active
        phone := d.phone, bio := d.bio
        createdAt := now, updatedAt := now }
    (.ok newUser, ⟨s.users ++ [newUser], s.nextId + 1⟩)

/-- The merged record `{...existing, ...patch, fullName: ..., updatedAt: ...}`
built by `UsersService.update`: spread presence semantics for the patched
fields, JS `||` truthiness for the full-name recomputation. -/
def applyUserPatch (u : User) (p : UpdateUserDto) (now : Nat) : User :=
  { id := u.id
    email := u.email
    firstName := (p.firstName).getD u.firstName
    lastName := (p.lastName).getD u.lastName
    fullName :=
      if optStrTruthy p.firstName || optStrTruthy p.lastName then
        jsOrStr p.firstName u.firstName ++ " " ++ jsOrStr p.lastName u.lastName
      else u.fullName
    role := u.role
    status := (p.status).getD u.status
    phone := match p.phone with | some v => some v | none => u.phone
    bio := match p.bio with | some v => some v | none => u.bio
    createdAt := u.createdAt
    updatedAt := now }

/-- `UsersService.update`. -/
def usersUpdate (s : UsersState) (i : Nat) (p : UpdateUserDto) (now : Nat) :
    Except ApiError User × UsersState :=
  match updateFirst (fun u => u.id == i) (fun u => applyUserPatch u p now) s.users with
  | none => (.error .notFound, s)
  | some (u, users') => (.ok u, ⟨users', s.nextId⟩)

/-- `UsersService.remove`. -/
def usersRemove (s : UsersState) (i : Nat) : Except ApiError Unit × UsersState :=
  match removeFirst (fun u => u.id == i) s.users with
  | none => (.error .notFound, s)
  | some users' => (.ok (), ⟨users', s.nextId⟩)

/-! ## Courses data model (`src/courses/dto/course.dto.ts`) -/

inductive CourseLevel
  | beginner
  | intermediate
  | advanced
deriving DecidableEq, Repr

inductive CourseStatus
  | draft
  | published
  | archived
deriving DecidableEq, Repr

/-- The denormalized instructor snapshot embedded in a course. -/
structure Instructor where
  id : Nat
  name : String
  email : String
deriving DecidableEq, Repr

/-- `CourseResponseDto`: the stored course record. -/
structure Course where
  id : Nat
  title : String
  description : String
  level : CourseLevel
  duration : Int
  price : Rat
  status : CourseStatus
  instructor : Instructor
  tags : List String
  rating : Rat
  enrolledStudents : Nat
  createdAt : Nat
  updatedAt : Nat
deriving DecidableEq, Repr

/-- `CreateCourseDto` (note: the class declares no `status` field, so a
creation request cannot carry one past the whitelist pipe). -/
structure CreateCourseDto where
  title : String
  description : String
  level : CourseLevel
  duration : Int
  price : Rat
  instructorId : Option Nat
  tags : Option (List String)
deriving DecidableEq, Repr

/-- `UpdateCourseDto` (this one does declare `status`). -/
structure UpdateCourseDto where
  title : Option String
  description : Option String
  level : Option CourseLevel
  duration : Option Int
  price : Option Rat
  status : Option CourseStatus
  tags : Option (List String)
deriving DecidableEq, Repr

/-- `QueryCourseDto` as seen by the service after boundary coercion. -/
structure CourseQuery where
  search : Option String
  level : Option CourseLevel
  status : Option CourseStatus
  instructorId : Option Nat
  minPrice : Option Rat
  maxPrice : Option Rat
  page : Option Int
  limit : Option Int
deriving DecidableEq, Repr

/-- The private `courses` array together with the private `nextId` counter. -/
structure CoursesState where
  courses : List Course
  nextId : Nat
deriving DecidableEq, Repr

/-- Seed course with id 1 from `courses.service.ts`. -/
def nestCourse : Course :=
  { id := 1, title := "Complete NestJS Bootcamp"
    description := "Learn NestJS from scratch to advanced level with real-world projects"
    level := .beginner, duration := 20, price := 9999/100, status := .published
    instructor := ⟨2, "Jane Smith", "instructor@lms.com"⟩
    tags := ["nestjs", "backend", "typescript"]
    rating := 45/10, enrolledStudents := 150
    createdAt := 20260201, updatedAt := 20260210 }

/-- Seed course with id 2 from `courses.service.ts`. -/
def tsCourse : Course :=
  { id := 2, title := "Advanced TypeScript Patterns"
    description := "Master advanced TypeScript concepts and design patterns"
    level := .advanced, duration := 15, price := 14999/100, status := .published
    instructor := ⟨2, "Jane Smith", "instructor@lms.com"⟩
    tags := ["typescript", "advanced", "patterns"]
    rating := 48/10, enrolledStudents := 89
    createdAt := 20260115, updatedAt := 20260205 }

/-- Seed course with id 3 from `courses.service.ts`. -/
def reactCourse : Course :=
  { id := 3, title := "React Fundamentals"
    description := "Build modern web applications with React"
    level := .beginner, duration := 12, price := 7999/100, status := .published
    instructor := ⟨2, "Jane Smith", "instructor@lms.com"⟩
    tags := ["react", "frontend", "javascript"]
    rating := 43/10, enrolledStudents := 230
    createdAt := 20260120, updatedAt := 20260208 }

/-- Initial state of `CoursesService`: three seed courses, `nextId = 4`. -/
def coursesInit : CoursesState := ⟨[nestCourse, tsCourse, reactCourse], 4⟩

/-- The search predicate of `CoursesService.findAll` (case-insensitive
substring on title or description); `sl` is the already-lowercased search. -/
def courseMatchesSearch (sl : String) (c : Course) : Bool :=
  strIncludes c.title.toLower sl || strIncludes c.description.toLower sl

/-- The `if (query.search)` stage of `CoursesService.findAll`. -/
def filterSearchC (o : Option String) (l : List Course) : List Course :=
  match o with
  | some t => if jsStrTruthy t then l.filter (courseMatchesSearch t.toLower) else l
  | none => l

/-- The `if (query.level)` stage of `CoursesService.findAll`. -/
def filterLevelC (o : Option CourseLevel) (l : List Course) : List Course :=
  match o with
  | some lv => l.filter (fun c => c.level == lv)
  | none => l

/-- The `if (query.status)` stage of `CoursesService.findAll`. -/
def filterStatusC (o : Option CourseStatus) (l : List Course) : List Course :=
  match o with
  | some st => l.filter (fun c => c.status == st)
  | none => l

/-- The `if (query.instructorId)` stage of `CoursesService.findAll`: JS number
truthiness, so an instructor id of 0 skips the filter. -/
def filterInstructorC (o : Option Nat) (l : List Course) : List Course :=
  match o with
  | some iid => if iid == 0 then l else l.filter (fun c => c.instructor.id == iid)
  | none => l

/-- The `if (query.minPrice !== undefined)` stage: presence check, not
truthiness, so a minimum price of 0 is applied. -/
def filterMinPriceC (o : Option Rat) (l : List Course) : List Course :=
  match o with
  | some mp => l.filter (fun c => decide (mp ≤ c.price))
  | none => l

/-- The `if (query.maxPrice !== undefined)` stage. -/
def filterMaxPriceC (o : Option Rat) (l : List Course) : List Course :=
  match o with
  | some mp => l.filter (fun c => decide (c.price ≤ mp))
  | none => l

/-- The filter pipeline of `CoursesService.findAll` before pagination. -/
def coursesFiltered (s : CoursesState) (q : CourseQuery) : List Course :=
  filterMaxPriceC q.maxPrice
    (filterMinPriceC q.minPrice
      (filterInstructorC q.instructorId
        (filterStatusC q.status
          (filterLevelC q.level
            (filterSearchC q.search s.courses)))))

/-- `CoursesService.findAll`. -/
def coursesFindAll (s : CoursesState) (q : CourseQuery) : Paged Course :=
  let filtered := coursesFiltered s q
  let total := filtered.length
  let page := jsOrInt q.page 1
  let limit := jsOrInt q.limit 10
  let start := (page - 1) * limit
  let stop := start + limit
  ⟨jsSlice filtered start stop, total, page, limit⟩

/-- `CoursesService.findOne`. -/
def coursesFindOne (s : CoursesState) (i : Nat) : Except ApiError Course :=
  match s.courses.find? (fun c => c.id == i) with
  | some c => .ok c
  | none => .error .notFound

/-- `CoursesService.create`: always a fresh id, status forced to draft,
hard-coded instructor snapshot (`instructorId || 2`, name and email are
literals — no lookup in the Users store), `tags || []`, rating 0, zero
enrolled students. -/
def coursesCreate (s : CoursesState) (d : CreateCourseDto) (now : Nat) :
    Course × CoursesState :=
  let c : Course :=
    { id := s.nextId, title := d.title, description := d.description
      level := d.level, duration := d.duration, price := d.price
      status := .draft
      instructor := ⟨jsOrNat d.instructorId 2, "Jane Smith", "instructor@lms.com"⟩
      tags := (d.tags).getD []
      rating := 0, enrolledStudents := 0
      createdAt := now, updatedAt := now }
  (c, ⟨s.courses ++ [c], s.nextId + 1⟩)

/-- The merged record `{...existing, ...patch, updatedAt: ...}` built by
`CoursesService.update`. -/
def applyCoursePatch (c : Course) (p : UpdateCourseDto) (now : Nat) : Course :=
  { id := c.id
    title := (p.title).getD c.title
    description := (p.description).getD c.description
    level := (p.level).getD c.level
    duration := (p.duration).getD c.duration
    price := (p.price).getD c.price
    status := (p.status).getD c.status
    instructor := c.instructor
    tags := (p.tags).getD c.tags
    rating := c.rating
    enrolledStudents := c.enrolledStudents
    createdAt := c.createdAt
    updatedAt := now }

/-- `CoursesService.update`. -/
def coursesUpdate (s : CoursesState) (i : Nat) (p : UpdateCourseDto) (now : Nat) :
    Except ApiError Course × CoursesState :=
  match updateFirst (fun c => c.id == i) (fun c => applyCoursePatch c p now) s.courses with
  | none => (.error .notFound, s)
  | some (c, courses') => (.ok c, ⟨courses', s.nextId⟩)

/-- `CoursesService.remove`. -/
def coursesRemove (s : CoursesState) (i : Nat) : Except ApiError Unit × CoursesState :=
  match removeFirst (fun c => c.id == i) s.courses with
  | none => (.error .notFound, s)
  | some courses' => (.ok (), ⟨courses', s.nextId⟩)

/-! ## Boundary pagination validation (`QueryUserDto` / `QueryCourseDto`)

The `page` and `limit` properties carry exactly the validator chain
`@IsOptional() @Type(() => Number) @IsInt()`: after numeric coercion the only
check is integrality.  The coerced JS number is modelled as a rational. -/

/-- The `@IsOptional() @IsInt()` validator chain on one pagination field. -/
def isIntCheck : Option Rat → Bool
  | none => true
  | some v => v.den == 1

/-- Whether the boundary `ValidationPipe` accepts the pagination part of a
`QueryUserDto` (`page`, `limit` are its only validated numeric fields). -/
def queryUserDtoAccepts (page limit : Option Rat) : Bool :=
  isIntCheck page && isIntCheck limit

/-! ## Authentication service (`src/auth/auth.service.ts`) -/

/-- One record of the hard-coded demo credential table. -/
structure DemoUser where
  email : String
  password : String
  id : Nat
  name : String
  role : String
deriving DecidableEq, Repr

/-- The demo credential table from `AuthService.login`. -/
def demoUsers : List DemoUser :=
  [ ⟨"user@example.com", "password123", 1, "John Doe", "student"⟩,
    ⟨"admin@lms.com", "admin123", 2, "Admin User", "admin"⟩,
    ⟨"instructor@lms.com", "instructor123", 3, "Jane Smith", "instructor"⟩ ]

/-- The JWT payload `{ email, sub, role }`; `jwtService.sign` is modelled as
carrying the signed claims themselves. -/
structure JwtPayload where
  email : String
  sub : Nat
  role : String
deriving DecidableEq, Repr

/-- The public identity snapshot returned by login (the structure has no
password field: the secret is never echoed back). -/
structure PublicUser where
  id : Nat
  email : String
  name : String
  role : String
deriving DecidableEq, Repr

/-- `LoginResponseDto`. -/
structure LoginResponse where
  access_token : JwtPayload
  token_type : String
  expires_in : Nat
  user : PublicUser
deriving DecidableEq, Repr

/-- `AuthService.login`. -/
def login (email password : String) : Except ApiError LoginResponse :=
  match demoUsers.find? (fun u => u.email == email && u.password == password) with
  | none => .error .unauthorized
  | some u =>
    .ok { access_token := ⟨u.email, u.id, u.role⟩
          token_type := "Bearer"
          expires_in := 604800
          user := ⟨u.id, u.email, u.name, u.role⟩ }


/-! ## Helper lemmas -/

/-- On non-negative indices with `stop = start + l`, a JS slice is the usual
drop-then-take window. -/
theorem jsSlice_nonneg {α : Type} (xs : List α) (start l : Int)
    (hs : 0 ≤ start) (hl : 0 ≤ l) :
    jsSlice xs start (start + l) = (xs.drop start.toNat).take l.toNat := by
  simp only [jsSlice]
  rw [if_neg (by omega), if_neg (by omega)]
  rcases le_total start (xs.length : Int) with h1 | h1
  · rw [min_eq_left h1]
    rcases le_total (start + l) (xs.length : Int) with h2 | h2
    · rw [min_eq_left h2]
      have hadd : (start + l).toNat = start.toNat + l.toNat := Int.toNat_add hs hl
      rw [hadd, ← List.take_drop]
    · rw [min_eq_right h2]
      have hlen : ((xs.length : Int)).toNat = xs.length := Int.toNat_natCast _
      rw [hlen, List.take_length]
      have hle : (xs.drop start.toNat).length ≤ l.toNat := by
        rw [List.length_drop]; omega
      exact (List.take_of_length_le hle).symm
  · rw [min_eq_right h1]
    have hlen : ((xs.length : Int)).toNat = xs.length := Int.toNat_natCast _
    rw [hlen]
    have h3 : xs.drop start.toNat = [] := List.drop_eq_nil_iff.mpr (by omega)
    rw [h3, List.take_nil]
    apply List.drop_eq_nil_iff.mpr
    have := List.length_take_le (min (start + l) (xs.length : Int)).toNat xs
    omega

/-- The element rewritten by `updateFirst` is the image of the first element
satisfying the predicate. -/
theorem updateFirst_some_eq {α : Type} {p : α → Bool} {f : α → α} {l : List α}
    {r x : α} {l' : List α}
    (hfind : l.find? p = some x) (h : updateFirst p f l = some (r, l')) : r = f x := by
  induction l generalizing r l' with
  | nil => simp [List.find?] at hfind
  | cons a as ih =>
    by_cases hpa : p a
    · rw [List.find?_cons_of_pos _ hpa] at hfind
      simp only [updateFirst, if_pos hpa, Option.some.injEq, Prod.mk.injEq] at h
      rw [← h.1, Option.some_inj.mp hfind]
    · rw [List.find?_cons_of_neg _ hpa] at hfind
      simp only [updateFirst, if_neg hpa] at h
      cases hrec : updateFirst p f as with
      | none => rw [hrec] at h; exact absurd h (by simp)
      | some pr =>
        obtain ⟨r0, as'⟩ := pr
        rw [hrec] at h
        simp only [Option.some.injEq, Prod.mk.injEq] at h
        rw [← h.1]
        exact ih hfind hrec

/-- When no element satisfies the predicate, `updateFirst` returns `none`. -/
theorem updateFirst_eq_none {α : Type} {p : α → Bool} {f : α → α} {l : List α}
    (h : ∀ x ∈ l, ¬ p x = true) : updateFirst p f l = none := by
  induction l with
  | nil => rfl
  | cons a as ih =>
    have hpa : ¬ p a = true := h a (by simp)
    have hrec := ih (fun x hx => h x (by simp [hx]))
    simp only [updateFirst, if_neg hpa, hrec]

/-- When no element satisfies the predicate, `removeFirst` returns `none`. -/
theorem removeFirst_eq_none {α : Type} {p : α → Bool} {l : List α}
    (h : ∀ x ∈ l, ¬ p x = true) : removeFirst p l = none := by
  induction l with
  | nil => rfl
  | cons a as ih =>
    have hpa : ¬ p a = true := h a (by simp)
    have hrec := ih (fun x hx => h x (by simp [hx]))
    simp only [removeFirst, if_neg hpa, hrec, Option.map_none']

/-- If the stored ids are pairwise distinct, the list left by a successful
`removeFirst` on an id contains no record with that id. -/
theorem removeFirst_id_gone {l : List User} {i : Nat} {l' : List User}
    (hnd : (l.map User.id).Nodup)
    (h : removeFirst (fun u => u.id == i) l = some l') :
    ∀ u ∈ l', u.id ≠ i := by
  induction l generalizing l' with
  | nil => simp [removeFirst] at h
  | cons a as ih =>
    rw [List.map_cons, List.nodup_cons] at hnd
    by_cases hpa : (a.id == i) = true
    · simp only [removeFirst, if_pos hpa, Option.some.injEq] at h
      subst h
      intro u hu hui
      have haid : a.id = i := by simpa using hpa
      exact hnd.1 (by
        rw [haid, ← hui]
        exact List.mem_map_of_mem User.id hu)
    · simp only [removeFirst, if_neg hpa] at h
      cases hrec : removeFirst (fun u => u.id == i) as with
      | none => rw [hrec, Option.map_none'] at h; exact absurd h (by simp)
      | some as' =>
        rw [hrec] at h
        simp only [Option.map_some', Option.some.injEq] at h
        subst h
        intro u hu
        rcases List.mem_cons.mp hu with rfl | hu'
        · intro hui; exact hpa (by simp [hui])
        · exact ih hnd.2 hrec u hu'

/-- `usersFindOne` succeeds exactly on the first stored record with the id. -/
theorem usersFindOne_ok_iff {s : UsersState} {i : Nat} {u : User} :
    usersFindOne s i = .ok u ↔ s.users.find? (fun x => x.id == i) = some u := by
  unfold usersFindOne
  cases h : s.users.find? (fun x => x.id == i) with
  | none => simp
  | some v => simp

/-- `coursesFindOne` succeeds exactly on the first stored record with the id. -/
theorem coursesFindOne_ok_iff {s : CoursesState} {i : Nat} {c : Course} :
    coursesFindOne s i = .ok c ↔ s.courses.find? (fun x => x.id == i) = some c := by
  unfold coursesFindOne
  cases h : s.courses.find? (fun x => x.id == i) with
  | none => simp
  | some v => simp

/-! ## Claim theorems -/

/-! ## Claim theorems -/

/-- Claim C1: for every stored sequence and every query (with the spec-domain
pagination values, `page ≥ 1` and `limit ≥ 1` after the JS `|| default`
fallback), `findAll` returns an envelope whose `total` is the number of
entities passing all supplied filters, whose `data` is exactly the contiguous
window `[(page-1)*limit, (page-1)*limit + limit)` of the filtered sequence in
original order, and a page beyond the available pages yields an empty `data`
slice rather than an error; concretely, over the 3 seed users with `page = 2`,
`limit = 1` the result is exactly the second user with `total = 3`. -/
theorem findAll_envelope_pagination
    (s : UsersState) (q : UserQuery) (cs : CoursesState) (cq : CourseQuery)
    (hp : 1 ≤ jsOrInt q.page 1) (hl : 1 ≤ jsOrInt q.limit 10)
    (hcp : 1 ≤ jsOrInt cq.page 1) (hcl : 1 ≤ jsOrInt cq.limit 10) :
    ((usersFindAll s q).total = (usersFiltered s q).length ∧
      (usersFindAll s q).data =
        ((usersFiltered s q).drop ((jsOrInt q.page 1 - 1) * jsOrInt q.limit 10).toNat).take
          (jsOrInt q.limit 10).toNat ∧
      (((usersFiltered s q).length : Int) ≤ (jsOrInt q.page 1 - 1) * jsOrInt q.limit 10 →
        (usersFindAll s q).data = [])) ∧
    ((coursesFindAll cs cq).total = (coursesFiltered cs cq).length ∧
      (coursesFindAll cs cq).data =
        ((coursesFiltered cs cq).drop ((jsOrInt cq.page 1 - 1) * jsOrInt cq.limit 10).toNat).take
          (jsOrInt cq.limit 10).toNat ∧
      (((coursesFiltered cs cq).length : Int) ≤ (jsOrInt cq.page 1 - 1) * jsOrInt cq.limit 10 →
        (coursesFindAll cs cq).data = [])) ∧
    usersFindAll usersInit ⟨none, none, none, some 2, some 1⟩ = ⟨[janeUser], 3, 2, 1⟩ := by
  have hwin : ∀ (α : Type) (xs : List α) (p l : Int), 1 ≤ p → 1 ≤ l →
      jsSlice xs ((p - 1) * l) ((p - 1) * l + l) =
        (xs.drop ((p - 1) * l).toNat).take l.toNat := by
    intro α xs p l hp hl
    exact jsSlice_nonneg xs _ l (mul_nonneg (by omega) (by omega)) (by omega)
  refine ⟨⟨rfl, ?_, ?_⟩, ⟨rfl, ?_, ?_⟩, by decide⟩
  · exact hwin _ (usersFiltered s q) _ _ hp hl
  · intro hbeyond
    have h1 := hwin _ (usersFiltered s q) _ _ hp hl
    have h2 : (usersFiltered s q).drop ((jsOrInt q.page 1 - 1) * jsOrInt q.limit 10).toNat = [] :=
      List.drop_eq_nil_iff.mpr (by omega)
    show jsSlice (usersFiltered s q) _ _ = []
    rw [h1, h2, List.take_nil]
  · exact hwin _ (coursesFiltered cs cq) _ _ hcp hcl
  · intro hbeyond
    have h1 := hwin _ (coursesFiltered cs cq) _ _ hcp hcl
    have h2 : (coursesFiltered cs cq).drop ((jsOrInt cq.page 1 - 1) * jsOrInt cq.limit 10).toNat = [] :=
      List.drop_eq_nil_iff.mpr (by omega)
    show jsSlice (coursesFiltered cs cq) _ _ = []
    rw [h1, h2, List.take_nil]

/-- Witness for C1: the concrete scenario `page = 2`, `limit = 1` over the 3
seed users, instantiating the pagination theorem. -/
theorem findAll_envelope_pagination_witness :
    usersFindAll usersInit ⟨none, none, none, some 2, some 1⟩ = ⟨[janeUser], 3, 2, 1⟩ :=
  (findAll_envelope_pagination usersInit ⟨none, none, none, some 2, some 1⟩
    coursesInit ⟨none, none, none, none, none, none, none, none⟩
    (by decide) (by decide) (by decide) (by decide)).2.2

/-- A patch touching only `phone`, used to instantiate the update theorems. -/
def phonePatch : UpdateUserDto := ⟨none, none, some "+15550001111", none, none⟩

/-- The seed admin user after the phone-only patch at instant 20270101. -/
def phonePatchedAdmin : User := applyUserPatch adminUser phonePatch 20270101

/-- The users state after the phone-only patch of user 1. -/
def usersAfterPhonePatch : UsersState := ⟨[phonePatchedAdmin, janeUser, bobUser], 4⟩

/-- A course patch touching only `description`. -/
def descPatch : UpdateCourseDto := ⟨none, some "Updated description", none, none, none, none, none⟩

/-- The seed course 1 after the description-only patch at instant 20270102. -/
def descPatchedNest : Course := applyCoursePatch nestCourse descPatch 20270102

/-- The courses state after the description-only patch of course 1. -/
def coursesAfterDescPatch : CoursesState := ⟨[descPatchedNest, tsCourse, reactCourse], 4⟩

/-- Claim C2: a successful `update` merges only the fields present in the
patch over the existing record (absent patch fields keep their previous
values and are never nulled out — in particular `email` and `role`, which the
update DTOs do not even declare, survive any patch), sets the update
timestamp to the current instant so that `updatedAt` strictly increases
whenever the clock has advanced, and can alter neither the identifier nor the
creation timestamp (the whitelisted update DTOs carry no `id` or `createdAt`
field, so no patch reaching the service contains them). -/
theorem update_merges_only_patch_fields
    (s : UsersState) (i now : Nat) (p : UpdateUserDto) (old u : User) (s' : UsersState)
    (hfind : usersFindOne s i = .ok old)
    (hupd : usersUpdate s i p now = (.ok u, s'))
    (cs : CoursesState) (ci cnow : Nat) (cp : UpdateCourseDto) (cold cu : Course)
    (cs' : CoursesState)
    (hcfind : coursesFindOne cs ci = .ok cold)
    (hcupd : coursesUpdate cs ci cp cnow = (.ok cu, cs')) :
    (u.id = old.id ∧
      u.createdAt = old.createdAt ∧
      u.email = old.email ∧
      u.role = old.role ∧
      u.updatedAt = now ∧
      (p.firstName = none → u.firstName = old.firstName) ∧
      (p.lastName = none → u.lastName = old.lastName) ∧
      (p.phone = none → u.phone = old.phone) ∧
      (p.bio = none → u.bio = old.bio) ∧
      (p.status = none → u.status = old.status) ∧
      (p.firstName = none → p.lastName = none → u.fullName = old.fullName) ∧
      (∀ v, p.phone = some v → u.phone = some v) ∧
      (old.updatedAt < now → old.updatedAt < u.updatedAt)) ∧
    (cu.id = cold.id ∧
      cu.createdAt = cold.createdAt ∧
      cu.updatedAt = cnow ∧
      cu.instructor = cold.instructor ∧
      (cp.title = none → cu.title = cold.title) ∧
      (cp.description = none → cu.description = cold.description) ∧
      (cp.level = none → cu.level = cold.level) ∧
      (cp.duration = none → cu.duration = cold.duration) ∧
      (cp.price = none → cu.price = cold.price) ∧
      (cp.status = none → cu.status = cold.status) ∧
      (cp.tags = none → cu.tags = cold.tags) ∧
      (cold.updatedAt < cnow → cold.updatedAt < cu.updatedAt)) := by
  have hraw : s.users.find? (fun x => x.id == i) = some old := usersFindOne_ok_iff.mp hfind
  have hcraw : cs.courses.find? (fun x => x.id == ci) = some cold := coursesFindOne_ok_iff.mp hcfind
  have hu : u = applyUserPatch old p now := by
    unfold usersUpdate at hupd
    cases hm : updateFirst (fun x => x.id == i) (fun x => applyUserPatch x p now) s.users with
    | none => rw [hm] at hupd; exact absurd hupd (by simp)
    | some pr =>
      obtain ⟨r, l'⟩ := pr
      rw [hm] at hupd
      have hr : r = applyUserPatch old p now := updateFirst_some_eq hraw hm
      have : Except.ok r = (Except.ok u : Except ApiError User) := by
        have := congrArg Prod.fst hupd
        simpa using this
      rw [← hr]
      injection this.symm
  have hc : cu = applyCoursePatch cold cp cnow := by
    unfold coursesUpdate at hcupd
    cases hm : updateFirst (fun x => x.id == ci) (fun x => applyCoursePatch x cp cnow) cs.courses with
    | none => rw [hm] at hcupd; exact absurd hcupd (by simp)
    | some pr =>
      obtain ⟨r, l'⟩ := pr
      rw [hm] at hcupd
      have hr : r = applyCoursePatch cold cp cnow := updateFirst_some_eq hcraw hm
      have : Except.ok r = (Except.ok cu : Except ApiError Course) := by
        have := congrArg Prod.fst hcupd
        simpa using this
      rw [← hr]
      injection this.symm
  subst hu hc
  constructor
  · refine ⟨rfl, rfl, rfl, rfl, rfl, ?_, ?_, ?_, ?_, ?_, ?_, ?_, ?_⟩
    · intro h; simp [applyUserPatch, h]
    · intro h; simp [applyUserPatch, h]
    · intro h; simp [applyUserPatch, h]
    · intro h; simp [applyUserPatch, h]
    · intro h; simp [applyUserPatch, h]
    · intro h1 h2; simp [applyUserPatch, h1, h2, optStrTruthy]
    · intro v h; simp [applyUserPatch, h]
    · intro h; exact h
  · refine ⟨rfl, rfl, rfl, rfl, ?_, ?_, ?_, ?_, ?_, ?_, ?_, ?_⟩
    · intro h; simp [applyCoursePatch, h]
    · intro h; simp [applyCoursePatch, h]
    · intro h; simp [applyCoursePatch, h]
    · intro h; simp [applyCoursePatch, h]
    · intro h; simp [applyCoursePatch, h]
    · intro h; simp [applyCoursePatch, h]
    · intro h; simp [applyCoursePatch, h]
    · intro h; exact h

/-- Witness for C2: patching only `phone` on the seed admin user (and only
`description` on the seed course) at a later instant strictly increases the
user's `updatedAt`. -/
theorem update_merges_only_patch_fields_witness :
    adminUser.updatedAt < phonePatchedAdmin.updatedAt := by
  have h := update_merges_only_patch_fields usersInit 1 20270101 phonePatch
    adminUser phonePatchedAdmin usersAfterPhonePatch rfl rfl
    coursesInit 1 20270102 descPatch nestCourse descPatchedNest coursesAfterDescPatch rfl rfl
  obtain ⟨-, -, -, -, -, -, -, -, -, -, -, -, h13⟩ := h.1
  exact h13 (by decide)

/-- Claim C3: creating a user with an email already stored fails with the
conflict error before any mutation (both the store and the `nextId` counter
are returned unchanged), so over a fresh email two successive `create` calls
with the same email give exactly one success and one conflict, in either
order of the two drafts. -/
theorem create_duplicate_email_conflict
    (s : UsersState) (d d2 : CreateUserDto) (now now2 : Nat) :
    ((∃ x ∈ s.users, x.email = d.email) → usersCreate s d now = (.error .conflict, s)) ∧
    ((¬ ∃ x ∈ s.users, x.email = d.email) → d2.email = d.email →
      (∃ u1, (usersCreate s d now).1 = .ok u1 ∧ u1.email = d.email) ∧
      usersCreate (usersCreate s d now).2 d2 now2 =
        (.error .conflict, (usersCreate s d now).2)) := by
  constructor
  · intro ⟨x, hx, hex⟩
    have hsome : (usersFindByEmail s d.email).isSome := by
      unfold usersFindByEmail
      rw [List.find?_isSome]
      exact ⟨x, hx, by simp [hex]⟩
    unfold usersCreate
    cases hm : usersFindByEmail s d.email with
    | none => rw [hm] at hsome; simp at hsome
    | some y => rfl
  · intro hno hsame
    have hnone : usersFindByEmail s d.email = none := by
      unfold usersFindByEmail
      rw [List.find?_eq_none]
      intro x hx
      simp only [beq_iff_eq]
      exact fun hex => hno ⟨x, hx, hex⟩
    constructor
    · show ∃ u1, (usersCreate s d now).1 = .ok u1 ∧ u1.email = d.email
      unfold usersCreate
      rw [hnone]
      exact ⟨_, rfl, rfl⟩
    · have hmem : ∃ y ∈ (usersCreate s d now).2.users, y.email = d.email := by
        unfold usersCreate
        rw [hnone]
        exact ⟨_, List.mem_append_right _ (List.mem_singleton_self _), rfl⟩
      obtain ⟨y, hymem, hyem⟩ := hmem
      have hsome2 : (usersFindByEmail (usersCreate s d now).2 d2.email).isSome := by
        unfold usersFindByEmail
        rw [List.find?_isSome]
        exact ⟨y, hymem, by simp [hyem, hsame]⟩
      conv_lhs => rw [usersCreate]
      cases hm : usersFindByEmail (usersCreate s d now).2 d2.email with
      | none => rw [hm] at hsome2; simp at hsome2
      | some y2 => rfl

/-- A draft for a user with an email not yet stored. -/
def freshUserDraft : CreateUserDto :=
  ⟨"carol@lms.com", "hunter2hunter2", "Carol", "Danvers", .student, none, none⟩

/-- Witness for C3: inserting a fresh email into the seed store succeeds, and
a second create with the same email hits the conflict and leaves the state of
the first create untouched. -/
theorem create_duplicate_email_conflict_witness :
    (∃ u1, (usersCreate usersInit freshUserDraft 50).1 = .ok u1 ∧
      u1.email = freshUserDraft.email) ∧
    usersCreate (usersCreate usersInit freshUserDraft 50).2 freshUserDraft 60 =
      (.error .conflict, (usersCreate usersInit freshUserDraft 50).2) :=
  (create_duplicate_email_conflict usersInit freshUserDraft freshUserDraft 50 60).2
    (by decide) rfl

/-- Claim C5: `login` succeeds exactly when a demo credential record matches
both the email and the password exactly; on success the token claims are
`{email, sub = identity id, role}` of the matching record, the token type is
"Bearer", the expiry is 604800 seconds (7 days), and the returned snapshot is
the public identity (a structure without a password field - the secret is
never echoed); on any mismatch the call fails with the unauthorized error and
carries no token fields.  Concretely, the demo student credentials yield a
student token and a wrong password yields the error. -/
theorem login_exact_credential_match (e pw : String) :
    ((∃ r, login e pw = .ok r) ↔ ∃ u ∈ demoUsers, u.email = e ∧ u.password = pw) ∧
    (∀ r, login e pw = .ok r →
      r.token_type = "Bearer" ∧
      r.expires_in = 604800 ∧
      ∃ u ∈ demoUsers, u.email = e ∧ u.password = pw ∧
        r.access_token = ⟨u.email, u.id, u.role⟩ ∧
        r.user = ⟨u.id, u.email, u.name, u.role⟩) ∧
    ((¬ ∃ u ∈ demoUsers, u.email = e ∧ u.password = pw) →
      login e pw = .error .unauthorized) ∧
    (login "user@example.com" "password123").map (fun r => r.access_token.role)
      = .ok "student" ∧
    login "user@example.com" "wrong" = .error .unauthorized := by
  have hmatch : ∀ u : DemoUser, ((u.email == e) && (u.password == pw)) = true ↔
      u.email = e ∧ u.password = pw := by
    intro u
    simp
  refine ⟨?_, ?_, ?_, rfl, rfl⟩
  · constructor
    · rintro ⟨r, hr⟩
      unfold login at hr
      cases hm : demoUsers.find? (fun u => u.email == e && u.password == pw) with
      | none => rw [hm] at hr; exact absurd hr (by simp)
      | some u =>
        have hu := List.find?_some hm
        have humem := List.mem_of_find?_eq_some hm
        exact ⟨u, humem, (hmatch u).mp hu⟩
    · rintro ⟨u, humem, hue, hup⟩
      have hsome : (demoUsers.find? (fun u => u.email == e && u.password == pw)).isSome := by
        rw [List.find?_isSome]
        exact ⟨u, humem, (hmatch u).mpr ⟨hue, hup⟩⟩
      unfold login
      cases hm : demoUsers.find? (fun u => u.email == e && u.password == pw) with
      | none => rw [hm] at hsome; simp at hsome
      | some v => exact ⟨_, rfl⟩
  · intro r hr
    unfold login at hr
    cases hm : demoUsers.find? (fun u => u.email == e && u.password == pw) with
    | none => rw [hm] at hr; exact absurd hr (by simp)
    | some u =>
      rw [hm] at hr
      have hu := List.find?_some hm
      have humem := List.mem_of_find?_eq_some hm
      obtain ⟨hue, hup⟩ := (hmatch u).mp hu
      have hr' : ({ access_token := ⟨u.email, u.id, u.role⟩, token_type := "Bearer", expires_in := 604800, user := ⟨u.id, u.email, u.name, u.role⟩ } : LoginResponse) = r := by
        injection hr
      rw [← hr']
      exact ⟨rfl, rfl, u, humem, hue, hup, rfl, rfl⟩
  · intro hno
    have hnone : demoUsers.find? (fun u => u.email == e && u.password == pw) = none := by
      rw [List.find?_eq_none]
      intro u humem hu
      exact hno ⟨u, humem, (hmatch u).mp hu⟩
    unfold login
    rw [hnone]

/-- Witness for C5: a wrong password for a known email is rejected with the
unauthorized error, via the no-match branch of the login theorem. -/
theorem login_exact_credential_match_witness :
    login "admin@lms.com" "wrong" = .error .unauthorized :=
  (login_exact_credential_match "admin@lms.com" "wrong").2.2.1 (by decide)

/-- Claim C7: every created course gets status draft (the creation DTO does
not even declare a status field, and the whitelist pipe rejects undeclared
fields, so no draft can set a course live), rating 0, zero enrolled students,
and the next sequential identifier; concretely, a beginner draft titled "X"
with duration 5 and price 10.00 over the seed store is created with
`status = draft`, `rating = 0`, `enrolledStudents = 0` and id 4. -/
theorem create_course_draft_defaults
    (s : CoursesState) (d : CreateCourseDto) (now : Nat) :
    (coursesCreate s d now).1.status = .draft ∧
    (coursesCreate s d now).1.rating = 0 ∧
    (coursesCreate s d now).1.enrolledStudents = 0 ∧
    (coursesCreate s d now).1.id = s.nextId ∧
    (coursesCreate s d now).2.nextId = s.nextId + 1 ∧
    (coursesCreate s d now).2.courses = s.courses ++ [(coursesCreate s d now).1] ∧
    ((coursesCreate coursesInit ⟨"X", "intro", .beginner, 5, 10, none, none⟩ 70).1.status
        = .draft ∧
      (coursesCreate coursesInit ⟨"X", "intro", .beginner, 5, 10, none, none⟩ 70).1.rating = 0 ∧
      (coursesCreate coursesInit ⟨"X", "intro", .beginner, 5, 10, none, none⟩ 70).1.enrolledStudents
        = 0 ∧
      (coursesCreate coursesInit ⟨"X", "intro", .beginner, 5, 10, none, none⟩ 70).1.id = 4) :=
  ⟨rfl, rfl, rfl, rfl, rfl, rfl, rfl, rfl, rfl, rfl⟩

/-- Claim C10: the denormalized instructor snapshot on every created course
carries the hard-coded display name "Jane Smith" and email
"instructor@lms.com" whatever the supplied `instructorId`; the instructor id
defaults to 2 when `instructorId` is absent or 0 (JS `|| 2` on a falsy
number) and is taken verbatim otherwise.  `coursesCreate` takes no users
store at all, so the snapshot is never looked up from it. -/
theorem create_course_instructor_snapshot
    (s : CoursesState) (d : CreateCourseDto) (now : Nat) :
    (coursesCreate s d now).1.instructor.name = "Jane Smith" ∧
    (coursesCreate s d now).1.instructor.email = "instructor@lms.com" ∧
    (d.instructorId = none → (coursesCreate s d now).1.instructor.id = 2) ∧
    (d.instructorId = some 0 → (coursesCreate s d now).1.instructor.id = 2) ∧
    (∀ iid, d.instructorId = some iid → iid ≠ 0 →
      (coursesCreate s d now).1.instructor.id = iid) := by
  refine ⟨rfl, rfl, ?_, ?_, ?_⟩
  · intro h; simp [coursesCreate, jsOrNat, h]
  · intro h; simp [coursesCreate, jsOrNat, h]
  · intro iid h hne
    simp only [coursesCreate, jsOrNat, h]
    rw [if_neg (by simpa using hne)]

/-- Witness for C10: a creation draft without an instructor id gets the
default instructor id 2. -/
theorem create_course_instructor_snapshot_witness :
    (coursesCreate coursesInit ⟨"X", "intro", .beginner, 5, 10, none, none⟩ 70).1.instructor.id
      = 2 :=
  (create_course_instructor_snapshot coursesInit
    ⟨"X", "intro", .beginner, 5, 10, none, none⟩ 70).2.2.1 rfl

/-- Counterexample to claim C4 as stated: a query with `page = -1` (and with
`page = 0, limit = 0`) passes the boundary validation declared on
`QueryUserDto` — the only check on `page`/`limit` is integrality — and the
negative page then flows into the slice computation of `findAll`, which
answers with a normal envelope whose data was produced by JS negative-index
slice semantics (the second-from-last seed user) instead of any rejection. -/
theorem pagination_nonpositive_not_rejected :
    queryUserDtoAccepts (some (-1 : Rat)) (some (1 : Rat)) = true ∧
    queryUserDtoAccepts (some (0 : Rat)) (some (0 : Rat)) = true ∧
    (usersFindAll usersInit ⟨none, none, none, some (-1), some 1⟩).data = [janeUser] ∧
    (usersFindAll usersInit ⟨none, none, none, some (-1), some 1⟩).page = -1 :=
  ⟨by decide, by decide, by decide, by decide⟩

/-- Claim C4 as amended: the boundary validation on `page`/`limit` checks
integrality only, so every integer — zero or negative included — is accepted;
inside the engine a zero `page` or `limit` silently falls back to the default
(1 resp. 10) through the JS `||` fallback, while negative values are accepted
into the slice computation, where JS negative-index slice semantics apply and
a normal envelope is returned. -/
theorem pagination_validation_integrality_only (s : UsersState) (q : UserQuery) :
    (∀ p l : Int, queryUserDtoAccepts (some (p : Rat)) (some (l : Rat)) = true) ∧
    usersFindAll s { q with page := some 0 } = usersFindAll s { q with page := none } ∧
    usersFindAll s { q with limit := some 0 } = usersFindAll s { q with limit := none } ∧
    usersFindAll usersInit ⟨none, none, none, some (-1), some 1⟩ = ⟨[janeUser], 3, -1, 1⟩ := by
  refine ⟨?_, rfl, rfl, by decide⟩
  intro p l
  simp [queryUserDtoAccepts, isIntCheck, Rat.den_intCast]

/-- The mutating operations a caller can direct at `UsersService`. -/
inductive UserOp
  | create (d : CreateUserDto) (now : Nat)
  | update (i : Nat) (p : UpdateUserDto) (now : Nat)
  | remove (i : Nat)

/-- The state transition of one `UsersService` operation (a thrown exception
leaves the state unchanged). -/
def applyUserOp (s : UsersState) : UserOp → UsersState
  | .create d now => (usersCreate s d now).2
  | .update i p now => (usersUpdate s i p now).2
  | .remove i => (usersRemove s i).2

/-- Running a sequence of `UsersService` operations. -/
def runUserOps (s : UsersState) (ops : List UserOp) : UsersState :=
  ops.foldl applyUserOp s

/-- No single operation ever decreases the `nextId` counter. -/
theorem applyUserOp_nextId_le (s : UsersState) (op : UserOp) :
    s.nextId ≤ (applyUserOp s op).nextId := by
  cases op with
  | create d now =>
    cases hm : usersFindByEmail s d.email <;>
      simp [applyUserOp, usersCreate, hm]
  | update i p now =>
    cases hm : updateFirst (fun u => u.id == i) (fun u => applyUserPatch u p now) s.users with
    | none => simp [applyUserOp, usersUpdate, hm]
    | some pr =>
      obtain ⟨r, l'⟩ := pr
      simp [applyUserOp, usersUpdate, hm]
  | remove i =>
    cases hm : removeFirst (fun u => u.id == i) s.users <;>
      simp [applyUserOp, usersRemove, hm]

/-- The `nextId` counter never decreases under any operation sequence. -/
theorem runUserOps_nextId_le (ops : List UserOp) (s : UsersState) :
    s.nextId ≤ (runUserOps s ops).nextId := by
  induction ops generalizing s with
  | nil => exact le_refl _
  | cons op ops ih =>
    calc s.nextId ≤ (applyUserOp s op).nextId := applyUserOp_nextId_le s op
    _ ≤ (runUserOps (applyUserOp s op) ops).nextId := ih _
    _ = (runUserOps s (op :: ops)).nextId := by simp [runUserOps]

/-- A successful create assigns exactly the current `nextId` as the id. -/
theorem usersCreate_ok_id {s : UsersState} {d : CreateUserDto} {now : Nat}
    {u : User} {s' : UsersState}
    (h : usersCreate s d now = (.ok u, s')) : u.id = s.nextId := by
  unfold usersCreate at h
  cases hm : usersFindByEmail s d.email with
  | some v =>
    rw [hm] at h
    exact absurd (congrArg Prod.fst h) (by simp)
  | none =>
    rw [hm] at h
    have h1 := congrArg Prod.fst h
    simp only at h1
    have h2 := Except.ok.inj h1
    rw [← h2]

/-- Claim C6: `findOne`, `update` and `remove` on an id absent from the store
each fail with the not-found error and change nothing (never a silent no-op);
once a `remove(id)` succeeds on a store with pairwise-distinct ids, a
subsequent `findOne(id)` fails with the not-found error; and an id below the
current `nextId` (e.g. any deleted id) is never reassigned by a create issued
after any further operation sequence, because `nextId` only ever increases. -/
theorem crud_missing_id_and_deletion_finality
    (s : UsersState) (i : Nat) (p : UpdateUserDto) (now now2 : Nat)
    (d : CreateUserDto) (ops : List UserOp) :
    ((∀ u ∈ s.users, u.id ≠ i) →
      usersFindOne s i = .error .notFound ∧
      usersUpdate s i p now = (.error .notFound, s) ∧
      usersRemove s i = (.error .notFound, s)) ∧
    ((s.users.map User.id).Nodup →
      ∀ s', usersRemove s i = (.ok (), s') → usersFindOne s' i = .error .notFound) ∧
    (i < s.nextId →
      ∀ u' s'', usersCreate (runUserOps s ops) d now2 = (.ok u', s'') → u'.id ≠ i) := by
  refine ⟨?_, ?_, ?_⟩
  · intro hno
    have habs : ∀ u ∈ s.users, ¬ ((fun u : User => u.id == i) u = true) := by
      intro u hu
      simp [hno u hu]
    refine ⟨?_, ?_, ?_⟩
    · unfold usersFindOne
      rw [List.find?_eq_none.mpr habs]
    · unfold usersUpdate
      rw [updateFirst_eq_none habs]
    · unfold usersRemove
      rw [removeFirst_eq_none habs]
  · intro hnd s' hrem
    unfold usersRemove at hrem
    cases hm : removeFirst (fun u => u.id == i) s.users with
    | none =>
      rw [hm] at hrem
      exact absurd (congrArg Prod.fst hrem) (by simp)
    | some l' =>
      rw [hm] at hrem
      have hs' : (⟨l', s.nextId⟩ : UsersState) = s' := congrArg Prod.snd hrem
      have hgone := removeFirst_id_gone hnd hm
      rw [← hs']
      unfold usersFindOne
      rw [List.find?_eq_none.mpr (by intro u hu; simp [hgone u hu])]
  · intro hlt u' s'' hc hui
    have hid := usersCreate_ok_id hc
    have hmono := runUserOps_nextId_le ops s
    omega

/-- Witness for C6: removing seed user 2 leaves a store on which `findOne 2`
fails with the not-found error. -/
theorem crud_missing_id_and_deletion_finality_witness :
    usersFindOne ⟨[adminUser, bobUser], 4⟩ 2 = .error .notFound :=
  (crud_missing_id_and_deletion_finality usersInit 2 ⟨none, none, none, none, none⟩
    0 0 freshUserDraft []).2.1 (by decide) ⟨[adminUser, bobUser], 4⟩ rfl

/-- Each search stage removes elements at most. -/
theorem filterSearchU_sublist (o : Option String) (l : List User) :
    List.Sublist (filterSearchU o l) (l) := by
  cases o with
  | none => exact List.Sublist.refl l
  | some t =>
    by_cases ht : jsStrTruthy t = true
    · simp only [filterSearchU, if_pos ht]; exact List.filter_sublist l
    · simp only [filterSearchU, if_neg ht]; exact List.Sublist.refl l

/-- The search stage is monotone with respect to sublists. -/
theorem filterSearchU_mono (o : Option String) {l l' : List User} (h : List.Sublist l l') :
    List.Sublist (filterSearchU o l) (filterSearchU o l') := by
  cases o with
  | none => exact h
  | some t =>
    by_cases ht : jsStrTruthy t = true
    · simp only [filterSearchU, if_pos ht]; exact h.filter _
    · simp only [filterSearchU, if_neg ht]; exact h

/-- The role stage removes elements at most. -/
theorem filterRoleU_sublist (o : Option UserRole) (l : List User) :
    List.Sublist (filterRoleU o l) (l) := by
  cases o with
  | none => exact List.Sublist.refl l
  | some r => exact List.filter_sublist l

/-- The role stage is monotone with respect to sublists. -/
theorem filterRoleU_mono (o : Option UserRole) {l l' : List User} (h : List.Sublist l l') :
    List.Sublist (filterRoleU o l) (filterRoleU o l') := by
  cases o with
  | none => exact h
  | some r => exact h.filter _

/-- The status stage removes elements at most. -/
theorem filterStatusU_sublist (o : Option UserStatus) (l : List User) :
    List.Sublist (filterStatusU o l) (l) := by
  cases o with
  | none => exact List.Sublist.refl l
  | some st => exact List.filter_sublist l

/-- The status stage is monotone with respect to sublists. -/
theorem filterStatusU_mono (o : Option UserStatus) {l l' : List User} (h : List.Sublist l l') :
    List.Sublist (filterStatusU o l) (filterStatusU o l') := by
  cases o with
  | none => exact h
  | some st => exact h.filter _

/-- Course search stage removes elements at most. -/
theorem filterSearchC_sublist (o : Option String) (l : List Course) :
    List.Sublist (filterSearchC o l) (l) := by
  cases o with
  | none => exact List.Sublist.refl l
  | some t =>
    by_cases ht : jsStrTruthy t = true
    · simp only [filterSearchC, if_pos ht]; exact List.filter_sublist l
    · simp only [filterSearchC, if_neg ht]; exact List.Sublist.refl l

/-- Course search stage is monotone with respect to sublists. -/
theorem filterSearchC_mono (o : Option String) {l l' : List Course} (h : List.Sublist l l') :
    List.Sublist (filterSearchC o l) (filterSearchC o l') := by
  cases o with
  | none => exact h
  | some t =>
    by_cases ht : jsStrTruthy t = true
    · simp only [filterSearchC, if_pos ht]; exact h.filter _
    · simp only [filterSearchC, if_neg ht]; exact h

/-- Course level stage removes elements at most. -/
theorem filterLevelC_sublist (o : Option CourseLevel) (l : List Course) :
    List.Sublist (filterLevelC o l) (l) := by
  cases o with
  | none => exact List.Sublist.refl l
  | some lv => exact List.filter_sublist l

/-- Course level stage is monotone with respect to sublists. -/
theorem filterLevelC_mono (o : Option CourseLevel) {l l' : List Course} (h : List.Sublist l l') :
    List.Sublist (filterLevelC o l) (filterLevelC o l') := by
  cases o with
  | none => exact h
  | some lv => exact h.filter _

/-- Course status stage removes elements at most. -/
theorem filterStatusC_sublist (o : Option CourseStatus) (l : List Course) :
    List.Sublist (filterStatusC o l) (l) := by
  cases o with
  | none => exact List.Sublist.refl l
  | some st => exact List.filter_sublist l

/-- Course status stage is monotone with respect to sublists. -/
theorem filterStatusC_mono (o : Option CourseStatus) {l l' : List Course} (h : List.Sublist l l') :
    List.Sublist (filterStatusC o l) (filterStatusC o l') := by
  cases o with
  | none => exact h
  | some st => exact h.filter _

/-- Course instructor stage removes elements at most. -/
theorem filterInstructorC_sublist (o : Option Nat) (l : List Course) :
    List.Sublist (filterInstructorC o l) (l) := by
  cases o with
  | none => exact List.Sublist.refl l
  | some iid =>
    by_cases hz : (iid == 0) = true
    · simp only [filterInstructorC, if_pos hz]; exact List.Sublist.refl l
    · simp only [filterInstructorC, if_neg hz]; exact List.filter_sublist l

/-- Course instructor stage is monotone with respect to sublists. -/
theorem filterInstructorC_mono (o : Option Nat) {l l' : List Course} (h : List.Sublist l l') :
    List.Sublist (filterInstructorC o l) (filterInstructorC o l') := by
  cases o with
  | none => exact h
  | some iid =>
    by_cases hz : (iid == 0) = true
    · simp only [filterInstructorC, if_pos hz]; exact h
    · simp only [filterInstructorC, if_neg hz]; exact h.filter _

/-- Course minimum-price stage removes elements at most. -/
theorem filterMinPriceC_sublist (o : Option Rat) (l : List Course) :
    List.Sublist (filterMinPriceC o l) (l) := by
  cases o with
  | none => exact List.Sublist.refl l
  | some mp => exact List.filter_sublist l

/-- Course minimum-price stage is monotone with respect to sublists. -/
theorem filterMinPriceC_mono (o : Option Rat) {l l' : List Course} (h : List.Sublist l l') :
    List.Sublist (filterMinPriceC o l) (filterMinPriceC o l') := by
  cases o with
  | none => exact h
  | some mp => exact h.filter _

/-- Course maximum-price stage removes elements at most. -/
theorem filterMaxPriceC_sublist (o : Option Rat) (l : List Course) :
    List.Sublist (filterMaxPriceC o l) (l) := by
  cases o with
  | none => exact List.Sublist.refl l
  | some mp => exact List.filter_sublist l

/-- Course maximum-price stage is monotone with respect to sublists. -/
theorem filterMaxPriceC_mono (o : Option Rat) {l l' : List Course} (h : List.Sublist l l') :
    List.Sublist (filterMaxPriceC o l) (filterMaxPriceC o l') := by
  cases o with
  | none => exact h
  | some mp => exact h.filter _

/-- Claim C8: filters are conjunctive — an entity appears in the filtered
result only if it satisfies every supplied filter, in both listing engines —
and adding one more filter to a query never enlarges the filtered set: for
every filter position not yet supplied, supplying it yields a subset of the
previous filtered sequence. -/
theorem filters_conjunctive_and_shrinking
    (s : UsersState) (q : UserQuery) (u : User)
    (cs : CoursesState) (cq : CourseQuery) (c : Course)
    (hu : u ∈ usersFiltered s q) (hc : c ∈ coursesFiltered cs cq) :
    (∀ t, q.search = some t → jsStrTruthy t = true → userMatchesSearch t.toLower u = true) ∧
    (∀ r, q.role = some r → u.role = r) ∧
    (∀ st, q.status = some st → u.status = st) ∧
    (∀ t, cq.search = some t → jsStrTruthy t = true → courseMatchesSearch t.toLower c = true) ∧
    (∀ lv, cq.level = some lv → c.level = lv) ∧
    (∀ st, cq.status = some st → c.status = st) ∧
    (∀ iid, cq.instructorId = some iid → iid ≠ 0 → c.instructor.id = iid) ∧
    (∀ mp, cq.minPrice = some mp → mp ≤ c.price) ∧
    (∀ mp, cq.maxPrice = some mp → c.price ≤ mp) ∧
    (∀ t, q.search = none → usersFiltered s { q with search := some t } ⊆ usersFiltered s q) ∧
    (∀ r, q.role = none → usersFiltered s { q with role := some r } ⊆ usersFiltered s q) ∧
    (∀ st, q.status = none → usersFiltered s { q with status := some st } ⊆ usersFiltered s q) ∧
    (∀ t, cq.search = none →
      coursesFiltered cs { cq with search := some t } ⊆ coursesFiltered cs cq) ∧
    (∀ lv, cq.level = none →
      coursesFiltered cs { cq with level := some lv } ⊆ coursesFiltered cs cq) ∧
    (∀ st, cq.status = none →
      coursesFiltered cs { cq with status := some st } ⊆ coursesFiltered cs cq) ∧
    (∀ iid, cq.instructorId = none →
      coursesFiltered cs { cq with instructorId := some iid } ⊆ coursesFiltered cs cq) ∧
    (∀ mp, cq.minPrice = none →
      coursesFiltered cs { cq with minPrice := some mp } ⊆ coursesFiltered cs cq) ∧
    (∀ mp, cq.maxPrice = none →
      coursesFiltered cs { cq with maxPrice := some mp } ⊆ coursesFiltered cs cq) := by
  have hu2 : u ∈ filterRoleU q.role (filterSearchU q.search s.users) :=
    (filterStatusU_sublist q.status _).subset hu
  have hu1 : u ∈ filterSearchU q.search s.users :=
    (filterRoleU_sublist q.role _).subset hu2
  have hc5 : c ∈ filterMinPriceC cq.minPrice
      (filterInstructorC cq.instructorId
        (filterStatusC cq.status
          (filterLevelC cq.level (filterSearchC cq.search cs.courses)))) :=
    (filterMaxPriceC_sublist cq.maxPrice _).subset hc
  have hc4 : c ∈ filterInstructorC cq.instructorId
      (filterStatusC cq.status
        (filterLevelC cq.level (filterSearchC cq.search cs.courses))) :=
    (filterMinPriceC_sublist cq.minPrice _).subset hc5
  have hc3 : c ∈ filterStatusC cq.status
      (filterLevelC cq.level (filterSearchC cq.search cs.courses)) :=
    (filterInstructorC_sublist cq.instructorId _).subset hc4
  have hc2 : c ∈ filterLevelC cq.level (filterSearchC cq.search cs.courses) :=
    (filterStatusC_sublist cq.status _).subset hc3
  have hc1 : c ∈ filterSearchC cq.search cs.courses :=
    (filterLevelC_sublist cq.level _).subset hc2
  refine ⟨?_, ?_, ?_, ?_, ?_, ?_, ?_, ?_, ?_, ?_, ?_, ?_, ?_, ?_, ?_, ?_, ?_, ?_⟩
  · intro t ht htr
    have h := hu1
    rw [ht] at h
    simp only [filterSearchU, if_pos htr] at h
    exact (List.mem_filter.mp h).2
  · intro r hr
    have h := hu2
    rw [hr] at h
    simp only [filterRoleU] at h
    simpa using (List.mem_filter.mp h).2
  · intro st hst
    have h := hu
    unfold usersFiltered at h
    rw [hst] at h
    simp only [filterStatusU] at h
    simpa using (List.mem_filter.mp h).2
  · intro t ht htr
    have h := hc1
    rw [ht] at h
    simp only [filterSearchC, if_pos htr] at h
    exact (List.mem_filter.mp h).2
  · intro lv hlv
    have h := hc2
    rw [hlv] at h
    simp only [filterLevelC] at h
    simpa using (List.mem_filter.mp h).2
  · intro st hst
    have h := hc3
    rw [hst] at h
    simp only [filterStatusC] at h
    simpa using (List.mem_filter.mp h).2
  · intro iid hiid hne
    have h := hc4
    rw [hiid] at h
    simp only [filterInstructorC, if_neg (show ¬ (iid == 0) = true by simpa using hne)] at h
    simpa using (List.mem_filter.mp h).2
  · intro mp hmp
    have h := hc5
    rw [hmp] at h
    simp only [filterMinPriceC] at h
    exact of_decide_eq_true (List.mem_filter.mp h).2
  · intro mp hmp
    have h := hc
    unfold coursesFiltered at h
    rw [hmp] at h
    simp only [filterMaxPriceC] at h
    exact of_decide_eq_true (List.mem_filter.mp h).2
  · intro t hn
    have hsub : List.Sublist (usersFiltered s { q with search := some t })
        (usersFiltered s q) := by
      unfold usersFiltered
      rw [hn]
      exact filterStatusU_mono _ (filterRoleU_mono _ (filterSearchU_sublist (some t) s.users))
    exact hsub.subset
  · intro r hn
    have hsub : List.Sublist (usersFiltered s { q with role := some r })
        (usersFiltered s q) := by
      unfold usersFiltered
      rw [hn]
      exact filterStatusU_mono _ (filterRoleU_sublist (some r) _)
    exact hsub.subset
  · intro st hn
    have hsub : List.Sublist (usersFiltered s { q with status := some st })
        (usersFiltered s q) := by
      unfold usersFiltered
      rw [hn]
      exact filterStatusU_sublist (some st) _
    exact hsub.subset
  · intro t hn
    have hsub : List.Sublist (coursesFiltered cs { cq with search := some t })
        (coursesFiltered cs cq) := by
      unfold coursesFiltered
      rw [hn]
      exact filterMaxPriceC_mono _ (filterMinPriceC_mono _ (filterInstructorC_mono _
        (filterStatusC_mono _ (filterLevelC_mono _
          (filterSearchC_sublist (some t) cs.courses)))))
    exact hsub.subset
  · intro lv hn
    have hsub : List.Sublist (coursesFiltered cs { cq with level := some lv })
        (coursesFiltered cs cq) := by
      unfold coursesFiltered
      rw [hn]
      exact filterMaxPriceC_mono _ (filterMinPriceC_mono _ (filterInstructorC_mono _
        (filterStatusC_mono _ (filterLevelC_sublist (some lv) _))))
    exact hsub.subset
  · intro st hn
    have hsub : List.Sublist (coursesFiltered cs { cq with status := some st })
        (coursesFiltered cs cq) := by
      unfold coursesFiltered
      rw [hn]
      exact filterMaxPriceC_mono _ (filterMinPriceC_mono _ (filterInstructorC_mono _
        (filterStatusC_sublist (some st) _)))
    exact hsub.subset
  · intro iid hn
    have hsub : List.Sublist (coursesFiltered cs { cq with instructorId := some iid })
        (coursesFiltered cs cq) := by
      unfold coursesFiltered
      rw [hn]
      exact filterMaxPriceC_mono _ (filterMinPriceC_mono _
        (filterInstructorC_sublist (some iid) _))
    exact hsub.subset
  · intro mp hn
    have hsub : List.Sublist (coursesFiltered cs { cq with minPrice := some mp })
        (coursesFiltered cs cq) := by
      unfold coursesFiltered
      rw [hn]
      exact filterMaxPriceC_mono _ (filterMinPriceC_sublist (some mp) _)
    exact hsub.subset
  · intro mp hn
    have hsub : List.Sublist (coursesFiltered cs { cq with maxPrice := some mp })
        (coursesFiltered cs cq) := by
      unfold coursesFiltered
      rw [hn]
      exact filterMaxPriceC_sublist (some mp) _
    exact hsub.subset

/-- Witness for C8: adding a role filter to the unfiltered user listing over
the seed store narrows (here: selects a subset of) the filtered sequence. -/
theorem filters_conjunctive_and_shrinking_witness :
    usersFiltered usersInit ⟨none, some .admin, none, none, none⟩ ⊆
      usersFiltered usersInit ⟨none, none, none, none, none⟩ := by
  have h := filters_conjunctive_and_shrinking usersInit ⟨none, none, none, none, none⟩
    adminUser coursesInit ⟨none, none, none, none, none, none, none, none⟩ nestCourse
    (List.mem_cons_self _ _) (List.mem_cons_self _ _)
  obtain ⟨-, -, -, -, -, -, -, -, -, -, h11, -⟩ := h
  exact h11 .admin rfl

/-- The patch `{firstName: "", lastName: "Smith"}` used to exhibit the stale
full-name behavior. -/
def emptyNamePatch : UpdateUserDto := ⟨some "", some "Smith", none, none, none⟩

/-- The seed admin user after `emptyNamePatch` at instant 99. -/
def emptyNamePatched : User := applyUserPatch adminUser emptyNamePatch 99

/-- Counterexample to claim C9 as stated: patching user 1 with
`{firstName: "", lastName: "Smith"}` stores `firstName = ""` (spread
semantics) but recomputes `fullName` through JS `||`, for which the empty
string is falsy, so the old first name is joined in: the result is
"Admin Smith", which is neither the plain nor any trim-join of the current
name parts "" and "Smith" (the plain join is " Smith", the trim-join is
"Smith") — `fullName` does not always reflect the current
`firstName`/`lastName`, and no trimming is performed anywhere. -/
theorem fullName_stale_after_empty_part_patch :
    (usersUpdate usersInit 1 emptyNamePatch 99).1 = .ok emptyNamePatched ∧
    emptyNamePatched.firstName = "" ∧
    emptyNamePatched.lastName = "Smith" ∧
    emptyNamePatched.fullName = "Admin Smith" ∧
    emptyNamePatched.fullName ≠
      emptyNamePatched.firstName ++ " " ++ emptyNamePatched.lastName ∧
    emptyNamePatched.fullName ≠ " Smith" ∧
    emptyNamePatched.fullName ≠ "Smith" :=
  ⟨rfl, rfl, rfl, rfl, by decide, by decide, by decide⟩

/-- Claim C9 as amended: a created user's `fullName` is the plain
single-space join `firstName ++ " " ++ lastName` (no trimming); on update it
is recomputed only when the patch supplies at least one truthy (non-empty)
name part, and inside the recomputed join an absent or empty-string part
falls back to the previously stored value — so a name part patched to the
empty string is stored but never reflected in `fullName`. -/
theorem fullName_plain_join_and_truthiness
    (s : UsersState) (d : CreateUserDto) (now : Nat) (u1 : User) (s1 : UsersState)
    (hc : usersCreate s d now = (.ok u1, s1))
    (i now2 : Nat) (p : UpdateUserDto) (old u2 : User) (s2 : UsersState)
    (hfind : usersFindOne s i = .ok old)
    (hupd : usersUpdate s i p now2 = (.ok u2, s2)) :
    u1.fullName = d.firstName ++ " " ++ d.lastName ∧
    (optStrTruthy p.firstName = false → optStrTruthy p.lastName = false →
      u2.fullName = old.fullName) ∧
    (∀ f l, p.firstName = some f → f ≠ "" → p.lastName = some l → l ≠ "" →
      u2.fullName = f ++ " " ++ l) ∧
    (∀ l, optStrTruthy p.firstName = false → p.lastName = some l → l ≠ "" →
      u2.fullName = old.firstName ++ " " ++ l ∧ u2.firstName = (p.firstName).getD old.firstName) ∧
    (∀ f, p.firstName = some f → f ≠ "" → optStrTruthy p.lastName = false →
      u2.fullName = f ++ " " ++ old.lastName) := by
  have hraw : s.users.find? (fun x => x.id == i) = some old := usersFindOne_ok_iff.mp hfind
  have hu2 : u2 = applyUserPatch old p now2 := by
    unfold usersUpdate at hupd
    cases hm : updateFirst (fun x => x.id == i) (fun x => applyUserPatch x p now2) s.users with
    | none => rw [hm] at hupd; exact absurd hupd (by simp)
    | some pr =>
      obtain ⟨r, l'⟩ := pr
      rw [hm] at hupd
      have hr : r = applyUserPatch old p now2 := updateFirst_some_eq hraw hm
      have hfst : Except.ok r = (Except.ok u2 : Except ApiError User) := by
        have := congrArg Prod.fst hupd
        simpa using this
      rw [← hr]
      injection hfst.symm
  have hu1 : u1.fullName = d.firstName ++ " " ++ d.lastName := by
    unfold usersCreate at hc
    cases hm : usersFindByEmail s d.email with
    | some v =>
      rw [hm] at hc
      exact absurd (congrArg Prod.fst hc) (by simp)
    | none =>
      rw [hm] at hc
      have h1 := congrArg Prod.fst hc
      simp only at h1
      have h2 := Except.ok.inj h1
      rw [← h2]
  subst hu2
  refine ⟨hu1, ?_, ?_, ?_, ?_⟩
  · intro h1 h2
    simp [applyUserPatch, h1, h2]
  · intro f l hf hfne hl hlne
    have hfb : (f != "") = true := by simpa using hfne
    have hlb : (l != "") = true := by simpa using hlne
    simp [applyUserPatch, hf, hl, optStrTruthy, jsStrTruthy, jsOrStr, hfb, hlb, hfne, hlne]
  · intro l h1 hl hlne
    have hfb : jsOrStr p.firstName old.firstName = old.firstName := by
      cases hp : p.firstName with
      | none => rfl
      | some f =>
        rw [hp] at h1
        simp only [optStrTruthy, jsStrTruthy, bne_iff_ne, ne_eq] at h1
        have : f = "" := by simpa using h1
        simp [jsOrStr, this]
    have hcond : (optStrTruthy p.firstName || optStrTruthy p.lastName) = true := by
      rw [hl]
      simp [optStrTruthy, jsStrTruthy, hlne]
    constructor
    · show (if optStrTruthy p.firstName || optStrTruthy p.lastName then
          jsOrStr p.firstName old.firstName ++ " " ++ jsOrStr p.lastName old.lastName
        else old.fullName) = old.firstName ++ " " ++ l
      rw [if_pos hcond, hfb, hl]
      simp [jsOrStr, hlne]
    · simp [applyUserPatch]
  · intro f hf hfne h2
    have hlb : jsOrStr p.lastName old.lastName = old.lastName := by
      cases hp : p.lastName with
      | none => rfl
      | some l =>
        rw [hp] at h2
        simp only [optStrTruthy, jsStrTruthy, bne_iff_ne, ne_eq] at h2
        have : l = "" := by simpa using h2
        simp [jsOrStr, this]
    have hcond : (optStrTruthy p.firstName || optStrTruthy p.lastName) = true := by
      rw [hf]
      simp [optStrTruthy, jsStrTruthy, hfne]
    show (if optStrTruthy p.firstName || optStrTruthy p.lastName then
        jsOrStr p.firstName old.firstName ++ " " ++ jsOrStr p.lastName old.lastName
      else old.fullName) = f ++ " " ++ old.lastName
    rw [if_pos hcond, hlb, hf]
    simp [jsOrStr, hfne]

/-- The user created from `freshUserDraft` at instant 50. -/
def carolUser : User :=
  { id := 4, email := "carol@lms.com", firstName := "Carol", lastName := "Danvers"
    fullName := "Carol Danvers", role := .student, status := .active
    phone := none, bio := none, createdAt := 50, updatedAt := 50 }

/-- The users state after creating `carolUser`. -/
def usersWithCarol : UsersState := ⟨[adminUser, janeUser, bobUser, carolUser], 5⟩

/-- A patch supplying only a truthy first name. -/
def alicePatch : UpdateUserDto := ⟨some "Alice", none, none, none, none⟩

/-- The seed admin user after `alicePatch` at instant 77. -/
def aliceAdmin : User := applyUserPatch adminUser alicePatch 77

/-- The users state after `alicePatch` on user 1. -/
def usersWithAlice : UsersState := ⟨[aliceAdmin, janeUser, bobUser], 4⟩

/-- Witness for the amended C9: patching only a truthy first name joins it
with the previously stored last name. -/
theorem fullName_plain_join_and_truthiness_witness :
    aliceAdmin.fullName = "Alice" ++ " " ++ adminUser.lastName := by
  have h := fullName_plain_join_and_truthiness usersInit freshUserDraft 50 carolUser
    usersWithCarol rfl 1 77 alicePatch adminUser aliceAdmin usersWithAlice rfl rfl
  obtain ⟨-, -, -, -, h5⟩ := h
  exact h5 "Alice" rfl (by decide) rfl
